import Mathlib

/-!
# Verification of the dwm window-management core (src/dwm.c)

Shallow embedding of the pure state-transition parts of `dwm.c` that the
checked claims are about.  Conventions:

* C `int` / `unsigned int` fields are modelled as `Int` / `Nat`; where C
  performs modular unsigned arithmetic this is written explicitly with
  `% 2^32`.
* C `float` values (`mfact`, the aspect hints `mina`/`maxa`) are modelled
  as exact rationals `Rat`; float-to-int conversion (truncation toward
  zero) is modelled by `truncRat`.
* Pointer-linked lists (clients, focus stack, monitors) are modelled as
  Lean `List`s; pointer identity becomes element identity, so list models
  carry `Nodup` hypotheses where the code relies on node distinctness.
* X-server side effects (XMoveResizeWindow, properties, …) have no bearing
  on the claims, which are about the in-memory model state; they are
  dropped, while every field update the C code performs is kept.
-/

namespace Dwm

/-! ## configurenotify (dwm.c:715-744), claim C4

The root-window branch of `configurenotify` overwrites the globals
`sw`/`sh` with `ev->width`/`ev->height` and only then computes
`dirty = (sw != ev->width || sh != ev->height)`.  The embedding takes the
old `sw`/`sh` and the event dimensions and returns the new `sw`, new `sh`
and the `dirty` value, mirroring the statement order of the C code. -/

structure ConfigureNotifyResult where
  sw : Int
  sh : Int
  dirty : Bool
deriving DecidableEq

/-- `configurenotify`, root-window branch: the assignments
`sw = ev->width; sh = ev->height;` followed by
`dirty = (sw != ev->width || sh != ev->height)` (dwm.c:722-725). -/
def configurenotify_root (_sw _sh evWidth evHeight : Int) : ConfigureNotifyResult :=
  let sw := evWidth
  let sh := evHeight
  let dirty := decide (sw ≠ evWidth) || decide (sh ≠ evHeight)
  ⟨sw, sh, dirty⟩

/-! ## change_masters_count (dwm.c:1238-1243), claim C7

`masters_count` is `unsigned int`; `arg->i` is `int`.  In
`MAX(selected_monitor->masters_count + arg->i, 1)` the `int` operand is
converted to `unsigned int`, the addition wraps modulo `2^32`, and the
max is taken on unsigned values. -/

/-- `change_masters_count`: new value of `selected_monitor->masters_count`
(dwm.c:1241).  The addition is 32-bit unsigned (wrapping) arithmetic. -/
def change_masters_count (masters_count : Nat) (i : Int) : Nat :=
  max ((((masters_count : Int) + i) % (2 ^ 32)).toNat) 1

/-! ## setmfact (dwm.c:1939-1956), claim C3 -/

/-- `setmfact`: new value of `selected_monitor->mfact`.  `hasArrange`
models `current_layout(selected_monitor)->arrange != NULL` (the `!arg`
null-check never fires for key bindings and is subsumed in it).  Floats
are modelled as rationals. -/
def setmfact (hasArrange : Bool) (argf mfact : Rat) : Rat :=
  if !hasArrange then mfact
  else
    let f := if argf < 1 then argf + mfact else argf - 1
    if f < 1 / 20 ∨ f > 19 / 20 then mfact else f

/-- Modelled from the spec's words, for comparison with `setmfact` only:
"If `|arg| < 1`, delta-adjust; else set absolutely to `arg - 1`; clamped
to `[0.05, 0.95]`." -/
def setmfact_specModel (argf mfact : Rat) : Rat :=
  let f := if |argf| < 1 then mfact + argf else argf - 1
  min (19 / 20) (max (1 / 20) f)

/-! ## view (dwm.c:2591-2611) and the tag-set helpers (dwm.c:288-304), claim C1

`selected_tags_set ∈ {0,1}` is flipped with `^= 1`; it is modelled as a
`Bool` (`false` = slot 0, `true` = slot 1), flipped with `not`. -/

structure ViewMon where
  tagset0 : Nat
  tagset1 : Nat
  selIsOne : Bool
  current_layout_index : Nat
deriving DecidableEq

/-- `current_tags` (dwm.c:288-292): `monitor->tagset[monitor->selected_tags_set]`. -/
def current_tagsV (m : ViewMon) : Nat :=
  if m.selIsOne then m.tagset1 else m.tagset0

/-- `set_tags` (dwm.c:294-298): write the selected tag-set slot. -/
def set_tagsV (m : ViewMon) (t : Nat) : ViewMon :=
  if m.selIsOne then { m with tagset1 := t } else { m with tagset0 := t }

/-- `swap_selected_tags` (dwm.c:300-304): `selected_tags_set ^= 1`. -/
def swap_selected_tags (m : ViewMon) : ViewMon :=
  { m with selIsOne := !m.selIsOne }

/-- `TAGMASK` (dwm.c:62): `(1 << LENGTH(tags)) - 1`, parameterized by the
number of configured tags. -/
def TAGMASK (numtags : Nat) : Nat := (1 <<< numtags) - 1

/-- `view` (dwm.c:2591-2611): swap the active slot; if the requested tag
(masked) is nonzero, overwrite the new slot with it; remember the layout
index; no-op when the requested tag equals the current tag-set.
(`focus`/`arrange` do not touch the tag state.) -/
def view (numtags : Nat) (index : Nat) (m : ViewMon) : ViewMon :=
  let requested := (1 <<< index) &&& TAGMASK numtags
  if requested = current_tagsV m then m
  else
    let m1 := swap_selected_tags m
    let m2 := if requested ≠ 0 then set_tagsV m1 requested else m1
    { m2 with current_layout_index := index }

/-! ## updategeom, fewer-screens branch (dwm.c:2408-2430) with attach /
attachstack (dwm.c:542-554) and cleanupmon (dwm.c:655-670), claim C2

Clients are modelled by distinct ids; a monitor carries its insertion
(`clients`) list and its focus `stack` list, both in pointer order. -/

structure MigMon where
  clients : List Nat
  stack : List Nat
deriving DecidableEq

/-- The client-migration `while` loop (dwm.c:2416-2423): pop the head of
the doomed monitor's client list, `detachstack` it there (remove from its
focus stack), re-home it, then `attach` and `attachstack` push it onto the
front of the head monitor's two lists. -/
def migrate_clients : List Nat → List Nat → MigMon → MigMon
  | [], _, head => head
  | c :: rest, tailStack, head =>
      migrate_clients rest (tailStack.erase c)
        { clients := c :: head.clients, stack := c :: head.stack }

/-- The `while (last_monitor && last_monitor->next)` walk to the tail
monitor (dwm.c:2410-2413), starting from a nonempty list. -/
def last_monitor : MigMon → List MigMon → MigMon
  | m, [] => m
  | _, b :: rest => last_monitor b rest

/-- `cleanupmon` applied to the tail monitor (dwm.c:655-670): unlink the
last node of the monitor list. -/
def drop_last_monitor : MigMon → List MigMon → List MigMon
  | _, [] => []
  | m, b :: rest => m :: drop_last_monitor b rest

/-- One iteration of the `for` loop in `updategeom`'s fewer-screens branch
(dwm.c:2409-2430): walk to the tail monitor, migrate every one of its
clients onto the head monitor, then release the tail.  (A one-element
monitor list never reaches this branch, since at least one Xinerama screen
remains; it is returned unchanged.) -/
def remove_tail_monitor : List MigMon → List MigMon
  | [] => []
  | [m] => [m]
  | head :: b :: rest =>
      let t := last_monitor b rest
      migrate_clients t.clients t.stack head :: drop_last_monitor b rest

/-! ## Client tag updates (dwm.c:368-411, 2101-2114, 2205-2222,
1807-1823), claim C8 -/

/-- The tag normalization closing `applyrules` (dwm.c:410):
`c->tags = c->tags & TAGMASK ? c->tags & TAGMASK : current_tags(c->monitor)`,
with `ruleTags` the OR of the matching rules' tag masks accumulated by the
loop above it. -/
def applyrules_tags (mask ruleTags monCur : Nat) : Nat :=
  if ruleTags &&& mask ≠ 0 then ruleTags &&& mask else monCur

/-- `tag` (dwm.c:2101-2114): with a selected client, set its tags to
`(1 << index) & TAGMASK` when that is nonzero, else leave them unchanged. -/
def tag_tags (mask index tags : Nat) : Nat :=
  let t := (1 <<< index) &&& mask
  if t ≠ 0 then t else tags

/-- `toggletag` (dwm.c:2205-2222): XOR `(1 << index) & TAGMASK` into the
selected client's tags when the result is nonzero, else leave them
unchanged. -/
def toggletag_tags (mask index tags : Nat) : Nat :=
  let t := (1 <<< index) &&& mask
  let u := tags ^^^ t
  if u ≠ 0 then u else tags

/-- `sendmon` (dwm.c:1807-1823): the migrated client's tags become the
target monitor's current tag-set (dwm.c:1818). -/
def sendmon_tags (monCur : Nat) : Nat := monCur

/-! ## dirtomon (dwm.c:875-891) and find_previous_monitor (dwm.c:347-357),
claim C10

Monitors are modelled by distinct ids in list order; `sel` is the id of
`selected_monitor`; pointer distinctness becomes `Nodup`. -/

/-- `find_previous_monitor` (dwm.c:347-357): walk from the head while the
node's successor is not `current` (`none` models NULL); return the node
where the walk stops, or `none` if it falls off the end. -/
def find_previous_monitor (ms : List Nat) (current : Option Nat) : Option Nat :=
  match ms with
  | [] => none
  | a :: rest =>
      if rest.head? = current then some a else find_previous_monitor rest current

/-- `selected_monitor->next` within the monitor list. -/
def next_monitor (ms : List Nat) (sel : Nat) : Option Nat :=
  match ms with
  | [] => none
  | a :: rest => if a = sel then rest.head? else next_monitor rest sel

/-- `dirtomon` (dwm.c:875-891): positive direction takes
`selected_monitor->next`, falling back to the head; otherwise the
predecessor, the head's predecessor being `find_previous_monitor(NULL)`,
i.e. the tail. -/
def dirtomon (dir : Int) (ms : List Nat) (sel : Nat) : Option Nat :=
  if 0 < dir then
    match next_monitor ms sel with
    | some m => some m
    | none => ms.head?
  else if ms.head? = some sel then find_previous_monitor ms none
  else find_previous_monitor ms (some sel)

/-! ## applysizehints (dwm.c:413-510), claims C5 and C6

`WIDTH`/`HEIGHT` (dwm.c:56-57) use the client's current geometry fields,
not the rectangle being adjusted.  The float aspect hints are modelled as
rationals; C's float-to-int conversion truncates toward zero (`truncRat`);
C's `%` on `int` truncates toward zero (`Int.tmod`). -/

structure SizeClient where
  x : Int
  y : Int
  w : Int
  h : Int
  border_width : Int
  basew : Int
  baseh : Int
  incw : Int
  inch : Int
  maxw : Int
  maxh : Int
  minw : Int
  minh : Int
  mina : Rat
  maxa : Rat
  isfloating : Bool
deriving DecidableEq

/-- Globals read by `applysizehints`: display size `sw`/`sh` (dwm.c:226),
bar height `bh` (dwm.c:227) and the `resizehints` config flag
(dwm.c:464). -/
structure SizeGlobals where
  sw : Int
  sh : Int
  bh : Int
  resizehints : Bool
deriving DecidableEq

/-- Monitor work area `(wx,wy,ww,wh)`. -/
structure WorkArea where
  wx : Int
  wy : Int
  ww : Int
  wh : Int
deriving DecidableEq

/-- C float-to-int conversion: truncation toward zero, on the rational
model of floats. -/
def truncRat (q : Rat) : Int := if 0 ≤ q then q.floor else -((-q).floor)

/-- `WIDTH(c)` (dwm.c:56): `c->w + 2 * c->border_width`. -/
def WIDTHc (c : SizeClient) : Int := c.w + 2 * c.border_width

/-- `HEIGHT(c)` (dwm.c:57): `c->h + 2 * c->border_width`. -/
def HEIGHTc (c : SizeClient) : Int := c.h + 2 * c.border_width

/-- The interactive x-clamp of `applysizehints` (dwm.c:423-433). -/
def clampXInteract (g : SizeGlobals) (c : SizeClient) (x w : Int) : Int :=
  let x1 := if x > g.sw then g.sw - WIDTHc c else x
  if x1 + w + 2 * c.border_width < 0 then 0 else x1

/-- The interactive y-clamp of `applysizehints` (dwm.c:427-437). -/
def clampYInteract (g : SizeGlobals) (c : SizeClient) (y h : Int) : Int :=
  let y1 := if y > g.sh then g.sh - HEIGHTc c else y
  if y1 + h + 2 * c.border_width < 0 then 0 else y1

/-- The non-interactive x-clamp of `applysizehints` (dwm.c:439-449). -/
def clampXTiled (m : WorkArea) (c : SizeClient) (x w : Int) : Int :=
  let x1 := if x ≥ m.wx + m.ww then m.wx + m.ww - WIDTHc c else x
  if x1 + w + 2 * c.border_width ≤ m.wx then m.wx else x1

/-- The non-interactive y-clamp of `applysizehints` (dwm.c:443-453). -/
def clampYTiled (m : WorkArea) (c : SizeClient) (y h : Int) : Int :=
  let y1 := if y ≥ m.wy + m.wh then m.wy + m.wh - HEIGHTc c else y
  if y1 + h + 2 * c.border_width ≤ m.wy then m.wy else y1

/-- The ICCCM 4.1.2.3 block of `applysizehints` (dwm.c:464-507): base
subtraction, aspect limits, base re-subtraction when `baseismin`,
increment rounding, base restoration with min clamp, then max clamp. -/
def applyHintBlock (c : SizeClient) (w h : Int) : Int × Int :=
  let baseismin := c.basew == c.minw && c.baseh == c.minh
  let w1 := if baseismin then w else w - c.basew
  let h1 := if baseismin then h else h - c.baseh
  let wh2 :=
    if 0 < c.mina ∧ 0 < c.maxa then
      if c.maxa < (w1 : Rat) / (h1 : Rat) then
        (truncRat ((h1 : Rat) * c.maxa + 1 / 2), h1)
      else if c.mina < (h1 : Rat) / (w1 : Rat) then
        (w1, truncRat ((w1 : Rat) * c.mina + 1 / 2))
      else (w1, h1)
    else (w1, h1)
  let w3 := if baseismin then wh2.1 - c.basew else wh2.1
  let h3 := if baseismin then wh2.2 - c.baseh else wh2.2
  let w4 := if c.incw ≠ 0 then w3 - Int.tmod w3 c.incw else w3
  let h4 := if c.inch ≠ 0 then h3 - Int.tmod h3 c.inch else h3
  let w5 := max (w4 + c.basew) c.minw
  let h5 := max (h4 + c.baseh) c.minh
  let w6 := if c.maxw ≠ 0 then min w5 c.maxw else w5
  let h6 := if c.maxh ≠ 0 then min h5 c.maxh else h5
  (w6, h6)

/-- The rectangle produced by `applysizehints` together with its return
value (whether the result differs from the client's current geometry). -/
structure AppliedGeom where
  x : Int
  y : Int
  w : Int
  h : Int
  changed : Bool
deriving DecidableEq

/-- `applysizehints` (dwm.c:413-510).  `layoutArrange` models
`current_layout(c->monitor)->arrange != NULL`. -/
def applysizehints (g : SizeGlobals) (layoutArrange : Bool) (m : WorkArea)
    (c : SizeClient) (x y w h : Int) (interact : Bool) : AppliedGeom :=
  let w0 := max 1 w
  let h0 := max 1 h
  let x1 := if interact then clampXInteract g c x w0 else clampXTiled m c x w0
  let y1 := if interact then clampYInteract g c y h0 else clampYTiled m c y h0
  let h2 := if h0 < g.bh then g.bh else h0
  let w2 := if w0 < g.bh then g.bh else w0
  let wh :=
    if g.resizehints || c.isfloating || !layoutArrange then
      applyHintBlock c w2 h2
    else (w2, h2)
  ⟨x1, y1, wh.1, wh.2,
    decide (x1 ≠ c.x) || decide (y1 ≠ c.y) ||
      decide (wh.1 ≠ c.w) || decide (wh.2 ≠ c.h)⟩

/-! ## setfullscreen / resizeclient / resize / showhide
(dwm.c:1876-1902, 1627-1640, 1619-1625, 2048-2066), claim C9

The un-fullscreen path of `setfullscreen` ends with
`arrange(c->monitor)` (dwm.c:1900), and `arrange` → `showhide` re-runs
`resize` on a visible floating (or non-arranged) client — re-filtering the
just-restored geometry through `applysizehints`.  The model therefore
carries the full hint-relevant client state. -/

structure Client where
  x : Int
  y : Int
  w : Int
  h : Int
  oldx : Int
  oldy : Int
  oldw : Int
  oldh : Int
  border_width : Int
  old_border_width : Int
  basew : Int
  baseh : Int
  incw : Int
  inch : Int
  maxw : Int
  maxh : Int
  minw : Int
  minh : Int
  mina : Rat
  maxa : Rat
  isfloating : Bool
  oldstate : Bool
  isfullscreen : Bool
deriving DecidableEq

/-- Monitor screen rectangle `(mx,my,mw,mh)`. -/
structure ScreenRect where
  mx : Int
  my : Int
  mw : Int
  mh : Int
deriving DecidableEq

/-- The fields of a `Client` that `applysizehints` reads. -/
def toSize (c : Client) : SizeClient :=
  ⟨c.x, c.y, c.w, c.h, c.border_width, c.basew, c.baseh, c.incw, c.inch,
    c.maxw, c.maxh, c.minw, c.minh, c.mina, c.maxa, c.isfloating⟩

/-- `resizeclient` (dwm.c:1627-1640): saves the current geometry into
`old*` and installs the new one (the X configure call carries no model
state). -/
def resizeclient (c : Client) (x y w h : Int) : Client :=
  { c with
    oldx := c.x, x := x
    oldy := c.y, y := y
    oldw := c.w, w := w
    oldh := c.h, h := h }

/-- `resize` (dwm.c:1619-1625): run `applysizehints` on the requested
rectangle and reconfigure the client only when the adjusted rectangle
differs from its current geometry. -/
def resize (g : SizeGlobals) (layoutArrange : Bool) (m : WorkArea)
    (c : Client) (x y w h : Int) (interact : Bool) : Client :=
  let r := applysizehints g layoutArrange m (toSize c) x y w h interact
  if r.changed then resizeclient c r.x r.y r.w r.h else c

/-- The effect of `showhide` (dwm.c:2048-2066) on one client: a visible
client that is floating or under a non-arranging layout, and not
fullscreen, is re-resized to its own geometry (dwm.c:2057-2059); a hidden
client is moved off-screen by an X call that does not touch the record. -/
def showhide_client (g : SizeGlobals) (layoutArrange : Bool) (m : WorkArea)
    (visible : Bool) (c : Client) : Client :=
  if visible && ((!layoutArrange || c.isfloating) && !c.isfullscreen) then
    resize g layoutArrange m c c.x c.y c.w c.h false
  else c

/-- The effect of `arrange(c->monitor)` (dwm.c:512-529) on the client `c`
itself: `showhide` may re-resize it; `restack` does not touch the record.
The layout pass (`tile`/`monocle`) walks `nexttiled` clients only, so it
skips `c` whenever `c` is floating, hidden, or the layout is
non-arranging; the additional resize it applies to a visible tiled client
under an arranging layout depends on the whole monitor and is not modelled
per-client — geometry theorems below therefore restrict to the exact
cases.  That layout resize would only alter `x,y,w,h,old*`, so the flag
and border fields of this model are exact in every case. -/
def arrange_client_effect (g : SizeGlobals) (layoutArrange : Bool)
    (m : WorkArea) (visible : Bool) (c : Client) : Client :=
  showhide_client g layoutArrange m visible c

/-- `setfullscreen` (dwm.c:1876-1902), including the trailing
`arrange(c->monitor)` (dwm.c:1900) of the un-fullscreen path as its effect
on this client.  `visible` models `ISVISIBLE(c)`; the fullscreen-on path
performs no arrange (dwm.c:1879-1888). -/
def setfullscreen (g : SizeGlobals) (layoutArrange : Bool) (m : WorkArea)
    (scr : ScreenRect) (visible : Bool) (c : Client) (fullscreen : Bool) : Client :=
  if fullscreen && !c.isfullscreen then
    let c1 := { c with
      isfullscreen := true
      oldstate := c.isfloating
      old_border_width := c.border_width
      border_width := 0
      isfloating := true }
    resizeclient c1 scr.mx scr.my scr.mw scr.mh
  else if !fullscreen && c.isfullscreen then
    let c1 := { c with
      isfullscreen := false
      isfloating := c.oldstate
      border_width := c.old_border_width
      x := c.oldx
      y := c.oldy
      w := c.oldw
      h := c.oldh }
    let c2 := resizeclient c1 c1.x c1.y c1.w c1.h
    arrange_client_effect g layoutArrange m visible c2
  else c

/-- A floating client with width-increment 7 and max width 30, standing at
`30 × 30` (the geometry an earlier arrange settles on: 50 → 49 → 30), used
to exhibit the fullscreen round-trip failure. -/
def fsCexClient : Client :=
  ⟨0, 0, 30, 30, 0, 0, 0, 0, 0, 0, 0, 0, 7, 0, 30, 0, 0, 0, 0, 0,
    true, false, false⟩

end Dwm

/-! # Theorems -/

namespace Dwm

/-- C4: in the `configurenotify` handler for a root-window ConfigureNotify
event, the local `dirty` value, computed as
`(sw != ev->width || sh != ev->height)` after `sw`/`sh` have already been
overwritten with `ev->width`/`ev->height`, is `false` for every input
event. -/
theorem configurenotify_dirty_always_false (sw sh evWidth evHeight : Int) :
    (configurenotify_root sw sh evWidth evHeight).dirty = false := by
  simp [configurenotify_root]

/-- C7 counterexample: with `masters_count = 1` and `arg->i = -2`,
`change_masters_count` yields `2^32 - 1 = 4294967295` (unsigned
wraparound), not `max(1 + (-2), 1) = 1` as the claim states. -/
theorem change_masters_count_cex :
    change_masters_count 1 (-2) = 4294967295 ∧
      max ((1 : Int) + (-2)) 1 = 1 ∧ (4294967295 : Nat) ≠ 1 := by
  refine ⟨?_, by decide, by decide⟩
  rfl

/-- C7 amended: for `masters_count < 2^32` and an `int` argument `i`, the
new `masters_count` is `max((masters_count + i) mod 2^32, 1)`: it never
drops below 1, it equals `max(masters_count + i, 1)` whenever the
mathematical sum is in `[0, 2^32)`, but when the sum is negative the
unsigned wraparound yields `masters_count + i + 2^32` instead of 1. -/
theorem change_masters_count_eq (mc : Nat) (i : Int)
    (hmc : mc < 2 ^ 32) (hlo : -(2 ^ 31) ≤ i) (hhi : i < 2 ^ 31) :
    1 ≤ change_masters_count mc i ∧
      (0 ≤ (mc : Int) + i → (mc : Int) + i < 2 ^ 32 →
        (change_masters_count mc i : Int) = max ((mc : Int) + i) 1) ∧
      ((mc : Int) + i < 0 →
        (change_masters_count mc i : Int) = (mc : Int) + i + 2 ^ 32) := by
  unfold change_masters_count
  simp only [(by norm_num : ((2 : Int) ^ 32) = 4294967296),
    (by norm_num : ((2 : Nat) ^ 32) = 4294967296),
    (by norm_num : ((2 : Int) ^ 31) = 2147483648)] at hmc hlo hhi ⊢
  omega

/-- C7 witness: the amended theorem applied at `masters_count = 1`,
`i = -2` (negative-sum wraparound) and at `masters_count = 3`, `i = -2`
(in-range clamped sum). -/
theorem change_masters_count_eq_witness :
    (change_masters_count 1 (-2) : Int) = 1 + -2 + 2 ^ 32 ∧
      (change_masters_count 3 (-2) : Int) = max ((3 : Int) + -2) 1 := by
  constructor
  · exact (change_masters_count_eq 1 (-2) (by norm_num) (by norm_num)
      (by norm_num)).2.2 (by norm_num)
  · exact (change_masters_count_eq 3 (-2) (by norm_num) (by norm_num)
      (by norm_num)).2.1 (by norm_num) (by norm_num)

/-- C3 counterexample: with `mfact = 0.55` and `arg->f = 0.5` (so
`|f| < 1`, the delta case of the claim), the computed factor `1.05` is out
of range and `setmfact` leaves `mfact` at `0.55`; the claim's clamping to
`[0.05, 0.95]` would give `0.95`. -/
theorem setmfact_cex :
    setmfact true (1 / 2) (11 / 20) = 11 / 20 ∧
      setmfact_specModel (1 / 2) (11 / 20) = 19 / 20 ∧
      (11 / 20 : Rat) ≠ 19 / 20 := by
  refine ⟨?_, ?_, by norm_num⟩
  · norm_num [setmfact]
  · norm_num [setmfact_specModel, abs_of_pos]

/-- C3 amended: `setmfact` computes the candidate factor as
`arg->f + mfact` when `arg->f < 1.0` and as `arg->f - 1.0` otherwise; if
the candidate lies outside `[0.05, 0.95]` the call leaves `mfact`
unchanged (there is no clamping), otherwise it sets `mfact` to the
candidate; consequently `mfact` always stays within `[0.05, 0.95]` when it
starts there. -/
theorem setmfact_in_range (hasArrange : Bool) (argf mfact : Rat)
    (h1 : 1 / 20 ≤ mfact) (h2 : mfact ≤ 19 / 20) :
    (1 / 20 ≤ setmfact hasArrange argf mfact ∧
      setmfact hasArrange argf mfact ≤ 19 / 20) ∧
    (hasArrange = true →
      ((1 / 20 ≤ (if argf < 1 then argf + mfact else argf - 1) ∧
          (if argf < 1 then argf + mfact else argf - 1) ≤ 19 / 20) →
        setmfact hasArrange argf mfact =
          (if argf < 1 then argf + mfact else argf - 1)) ∧
      (((if argf < 1 then argf + mfact else argf - 1) < 1 / 20 ∨
          19 / 20 < (if argf < 1 then argf + mfact else argf - 1)) →
        setmfact hasArrange argf mfact = mfact)) := by
  cases hasArrange with
  | false =>
    refine ⟨⟨?_, ?_⟩, fun h => absurd h (by decide)⟩ <;>
      simp [setmfact] <;> linarith
  | true =>
    have hunf : setmfact true argf mfact =
        if (if argf < 1 then argf + mfact else argf - 1) < 1 / 20 ∨
            (if argf < 1 then argf + mfact else argf - 1) > 19 / 20
        then mfact else (if argf < 1 then argf + mfact else argf - 1) := by
      simp [setmfact]
    rw [hunf]
    by_cases hout : (if argf < 1 then argf + mfact else argf - 1) < 1 / 20 ∨
        (if argf < 1 then argf + mfact else argf - 1) > 19 / 20
    · rw [if_pos hout]
      refine ⟨⟨h1, h2⟩, fun _ => ⟨fun hin => ?_, fun _ => rfl⟩⟩
      rcases hout with h | h
      · linarith [hin.1]
      · linarith [hin.2]
    · rw [if_neg hout]
      push_neg at hout
      refine ⟨⟨hout.1, hout.2⟩, fun _ => ⟨fun _ => rfl, fun hc => ?_⟩⟩
      rcases hc with h | h
      · linarith [hout.1]
      · linarith [hout.2]

/-- C3 witness: the amended theorem applied at `hasArrange = true`,
`arg->f = 0.05`, `mfact = 0.5`: the candidate `0.55` is in range and
becomes the new `mfact`, which stays within `[0.05, 0.95]`. -/
theorem setmfact_in_range_witness :
    (1 / 20 ≤ setmfact true (1 / 20) (1 / 2) ∧
      setmfact true (1 / 20) (1 / 2) ≤ 19 / 20) ∧
      setmfact true (1 / 20) (1 / 2) =
        (if (1 / 20 : Rat) < 1 then 1 / 20 + 1 / 2 else 1 / 20 - 1) := by
  have h := setmfact_in_range true (1 / 20) (1 / 2) (by norm_num) (by norm_num)
  refine ⟨h.1, (h.2 rfl).1 ?_⟩
  norm_num

/-- C1 counterexample: with 9 tags, tag-sets `[1, 1]`, slot 0 selected
(visible set `1`), executing `view(1)` twice leaves the visible set at
`2 = 1<<1`, not at its original value `1`: the second call is a no-op
because the requested tag already equals the current tag-set. -/
theorem view_twice_cex :
    current_tagsV (view 9 1 (view 9 1 ⟨1, 1, false, 0⟩)) = 2 ∧
      current_tagsV ⟨1, 1, false, 0⟩ = 1 ∧ (2 : Nat) ≠ 1 := by
  refine ⟨?_, rfl, by decide⟩
  rfl

/-- C1 amended: when `(1<<i) & TAGMASK` is nonzero, `view(i); view(i)`
leaves the monitor's visible tag-set equal to `(1<<i) & TAGMASK` (the
second call is a no-op), so the visible set is unchanged only if it was
already that value; when `(1<<i) & TAGMASK` is zero and both tag-set slots
are nonzero, the pure slot swap is involutive and the visible tag-set is
restored. -/
theorem view_twice (numtags i : Nat) (m : ViewMon) :
    ((1 <<< i) &&& TAGMASK numtags ≠ 0 →
      current_tagsV (view numtags i (view numtags i m)) =
        (1 <<< i) &&& TAGMASK numtags) ∧
    ((1 <<< i) &&& TAGMASK numtags = 0 → m.tagset0 ≠ 0 → m.tagset1 ≠ 0 →
      current_tagsV (view numtags i (view numtags i m)) = current_tagsV m) := by
  obtain ⟨t0, t1, s, li⟩ := m
  constructor
  · intro ht
    by_cases hc : (1 <<< i) &&& TAGMASK numtags =
        current_tagsV ⟨t0, t1, s, li⟩
    · simp only [view, if_pos hc, ← hc, if_pos]
    · cases s <;>
        simp_all [view, current_tagsV, set_tagsV, swap_selected_tags]
  · intro ht h0 h1
    have h0' : (0 : Nat) ≠ t0 := fun h => h0 h.symm
    have h1' : (0 : Nat) ≠ t1 := fun h => h1 h.symm
    cases s <;>
      simp [view, ht, current_tagsV, set_tagsV, swap_selected_tags, h0', h1']

/-- C1 witness: the amended theorem's nonzero arm at 9 tags, tag-sets
`[1, 2]`, slot 0 selected, `i = 1`: after `view(1); view(1)` the visible
tag-set is `2`; and its zero arm at `i = 31` (masked tag 0): the visible
tag-set returns to `1`. -/
theorem view_twice_witness :
    current_tagsV (view 9 1 (view 9 1 ⟨1, 2, false, 0⟩)) =
        (1 <<< 1) &&& TAGMASK 9 ∧
      current_tagsV (view 9 31 (view 9 31 ⟨1, 2, false, 0⟩)) =
        current_tagsV ⟨1, 2, false, 0⟩ := by
  exact ⟨(view_twice 9 1 ⟨1, 2, false, 0⟩).1 (by decide),
    (view_twice 9 31 ⟨1, 2, false, 0⟩).2 (by decide) (by decide) (by decide)⟩

theorem migrate_clients_spec (tc : List Nat) :
    ∀ (ts : List Nat) (head : MigMon),
      migrate_clients tc ts head =
        ⟨tc.reverse ++ head.clients, tc.reverse ++ head.stack⟩ := by
  induction tc with
  | nil => intro ts head; simp [migrate_clients]
  | cons c rest ih =>
    intro ts head
    rw [migrate_clients, ih]
    simp

/-- C2 counterexample: an empty head monitor and a tail monitor whose
client list and focus stack are both `[1, 2]`.  After the removal step the
head monitor's focus stack is `[2, 1]`: the migrated clients do not keep
the focus-stack order `[1, 2]` they had on the removed monitor. -/
theorem remove_tail_monitor_cex :
    remove_tail_monitor [⟨[], []⟩, ⟨[1, 2], [1, 2]⟩] = [⟨[2, 1], [2, 1]⟩] ∧
      ([2, 1] : List Nat) ≠ [1, 2] := by
  exact ⟨rfl, by decide⟩

/-- C2 amended: when the screen count drops below the monitor count,
`updategeom` repeatedly takes the tail monitor, migrates every client on
it to the head monitor, and releases the tail; the migrated clients are
re-attached one by one in the removed monitor's insertion-list order, so
they appear at the front of the head monitor's client list and of its
focus stack in *reverse* of that insertion order (the removed monitor's
own focus-stack order plays no role). -/
theorem remove_tail_monitor_spec (head t : MigMon) (mid : List MigMon) :
    remove_tail_monitor (head :: (mid ++ [t])) =
      ({ clients := t.clients.reverse ++ head.clients,
         stack := t.clients.reverse ++ head.stack } : MigMon) :: mid := by
  have hlast : ∀ (l : List MigMon) (b : MigMon), last_monitor b (l ++ [t]) = t := by
    intro l
    induction l with
    | nil => intro b; rfl
    | cons c cs ih => intro b; exact ih c
  have hdrop : ∀ (l : List MigMon) (b : MigMon),
      drop_last_monitor b (l ++ [t]) = b :: l := by
    intro l
    induction l with
    | nil => intro b; rfl
    | cons c cs ih => intro b; rw [List.cons_append, drop_last_monitor, ih]
  cases mid with
  | nil =>
    rw [List.nil_append, remove_tail_monitor]
    rw [show last_monitor t [] = t from rfl, migrate_clients_spec]
    rfl
  | cons b bs =>
    rw [List.cons_append, remove_tail_monitor]
    rw [hlast bs b, hdrop bs b, migrate_clients_spec]

theorem and_mask_idem (a m : Nat) : (a &&& m) &&& m = a &&& m := by
  apply Nat.eq_of_testBit_eq
  intro i
  cases hm : m.testBit i <;> simp [Nat.testBit_and, hm]

theorem xor_and_mask (a b m : Nat) (ha : a &&& m = a) (hb : b &&& m = b) :
    (a ^^^ b) &&& m = a ^^^ b := by
  apply Nat.eq_of_testBit_eq
  intro i
  have ha' : (a.testBit i && m.testBit i) = a.testBit i := by
    rw [← Nat.testBit_and, ha]
  have hb' : (b.testBit i && m.testBit i) = b.testBit i := by
    rw [← Nat.testBit_and, hb]
  cases hm : m.testBit i with
  | true => simp [Nat.testBit_and, Nat.testBit_xor, hm]
  | false =>
    rw [hm] at ha' hb'
    simp only [Bool.and_false] at ha' hb'
    simp [Nat.testBit_and, Nat.testBit_xor, hm, ← ha', ← hb']

/-- C8: writing `ok tags` for `tags ≠ 0 ∧ tags & TAGMASK = tags` (which
implies the claimed `tags & TAGMASK ≠ 0`): under the monitor tag-set
invariant (the current tag-set is nonzero and within `TAGMASK`),
`applyrules` establishes `ok` for any accumulated rule tags, and `tag`,
`toggletag` and `sendmon` each preserve `ok`. -/
theorem tags_invariant (mask monCur : Nat)
    (hm0 : monCur ≠ 0) (hmm : monCur &&& mask = monCur) :
    (∀ ruleTags, applyrules_tags mask ruleTags monCur ≠ 0 ∧
      applyrules_tags mask ruleTags monCur &&& mask =
        applyrules_tags mask ruleTags monCur) ∧
    (∀ index tags, tags ≠ 0 → tags &&& mask = tags →
      tag_tags mask index tags ≠ 0 ∧
        tag_tags mask index tags &&& mask = tag_tags mask index tags) ∧
    (∀ index tags, tags ≠ 0 → tags &&& mask = tags →
      toggletag_tags mask index tags ≠ 0 ∧
        toggletag_tags mask index tags &&& mask = toggletag_tags mask index tags) ∧
    (sendmon_tags monCur ≠ 0 ∧
      sendmon_tags monCur &&& mask = sendmon_tags monCur) ∧
    (∀ tags, tags ≠ 0 → tags &&& mask = tags → tags &&& mask ≠ 0) := by
  refine ⟨?_, ?_, ?_, ⟨hm0, hmm⟩, ?_⟩
  · intro ruleTags
    unfold applyrules_tags
    by_cases h : ruleTags &&& mask ≠ 0
    · rw [if_pos h]
      exact ⟨h, and_mask_idem ruleTags mask⟩
    · rw [if_neg h]
      exact ⟨hm0, hmm⟩
  · intro index tags h0 h1
    unfold tag_tags
    by_cases h : (1 <<< index) &&& mask ≠ 0
    · simp only [if_pos h]
      exact ⟨h, and_mask_idem (1 <<< index) mask⟩
    · simp only [if_neg h]
      exact ⟨h0, h1⟩
  · intro index tags h0 h1
    unfold toggletag_tags
    by_cases h : tags ^^^ ((1 <<< index) &&& mask) ≠ 0
    · simp only [if_pos h]
      exact ⟨h, xor_and_mask tags ((1 <<< index) &&& mask) mask h1
        (and_mask_idem (1 <<< index) mask)⟩
    · simp only [if_neg h]
      exact ⟨h0, h1⟩
  · intro tags h0 h1
    rw [h1]
    exact h0

/-- C8 witness: the invariant theorem at `TAGMASK = 511` (9 tags) and a
monitor whose current tag-set is `1`: `applyrules` with no matching rule
tags yields valid tags, and a vetoed `toggletag` (which would zero the
tags of a client on tag 1) leaves them valid. -/
theorem tags_invariant_witness :
    (applyrules_tags 511 0 1 ≠ 0 ∧
      applyrules_tags 511 0 1 &&& 511 = applyrules_tags 511 0 1) ∧
      (toggletag_tags 511 0 1 ≠ 0 ∧
        toggletag_tags 511 0 1 &&& 511 = toggletag_tags 511 0 1) := by
  have h := tags_invariant 511 1 (by decide) (by decide)
  exact ⟨h.1 0, h.2.2.1 0 1 (by decide) (by decide)⟩

theorem find_previous_monitor_none (ms : List Nat) :
    find_previous_monitor ms none = ms.getLast? := by
  induction ms with
  | nil => rfl
  | cons a rest ih =>
    cases rest with
    | nil => rfl
    | cons b bs =>
      rw [find_previous_monitor, if_neg (by simp), ih, List.getLast?_cons_cons]

theorem next_monitor_of_last (ms : List Nat) (sel : Nat)
    (hnd : ms.Nodup) (hl : ms.getLast? = some sel) :
    next_monitor ms sel = none := by
  induction ms with
  | nil => rfl
  | cons a rest ih =>
    rw [next_monitor]
    by_cases ha : a = sel
    · rw [if_pos ha]
      cases rest with
      | nil => rfl
      | cons b bs =>
        exfalso
        rw [List.getLast?_cons_cons] at hl
        have hmem : sel ∈ b :: bs := by
          obtain ⟨hne, heq⟩ := List.mem_getLast?_eq_getLast (Option.mem_def.mpr hl)
          rw [heq]
          exact List.getLast_mem hne
        exact (List.nodup_cons.mp hnd).1 (ha ▸ hmem)
    · rw [if_neg ha]
      cases rest with
      | nil =>
        exfalso
        exact ha (Option.some_injective _ hl)
      | cons b bs =>
        rw [List.getLast?_cons_cons] at hl
        exact ih (List.nodup_cons.mp hnd).2 hl

theorem find_previous_monitor_isSome (ms : List Nat) (sel : Nat)
    (hmem : sel ∈ ms) (hhead : ms.head? ≠ some sel) :
    (find_previous_monitor ms (some sel)).isSome = true := by
  induction ms with
  | nil => cases hmem
  | cons a rest ih =>
    rw [find_previous_monitor]
    by_cases h : rest.head? = some sel
    · rw [if_pos h]; rfl
    · rw [if_neg h]
      have ha : a ≠ sel := fun he => hhead (by simp [he])
      have : sel ∈ rest := by
        cases List.mem_cons.mp hmem with
        | inl heq => exact absurd heq.symm ha
        | inr hr => exact hr
      exact ih this h

/-- C10: monitor-direction navigation wraps cyclically: in a monitor list
containing the selected monitor, `dirtomon` with a positive direction from
the last monitor returns the head, with a non-positive direction from the
head returns the last monitor, and it never returns NULL, so `focusmon`
and `tagmon` wrap around the ends. -/
theorem dirtomon_wraps (ms : List Nat) (sel : Nat)
    (hmem : sel ∈ ms) (hnd : ms.Nodup) :
    (∀ dir : Int, 0 < dir → ms.getLast? = some sel →
      dirtomon dir ms sel = ms.head?) ∧
    (∀ dir : Int, dir ≤ 0 → ms.head? = some sel →
      dirtomon dir ms sel = ms.getLast?) ∧
    (∀ dir : Int, (dirtomon dir ms sel).isSome = true) := by
  refine ⟨?_, ?_, ?_⟩
  · intro dir hdir hl
    unfold dirtomon
    rw [if_pos hdir, next_monitor_of_last ms sel hnd hl]
  · intro dir hdir hh
    unfold dirtomon
    rw [if_neg (by omega), if_pos hh, find_previous_monitor_none]
  · intro dir
    unfold dirtomon
    by_cases hdir : 0 < dir
    · rw [if_pos hdir]
      cases hnm : next_monitor ms sel with
      | some m => rfl
      | none =>
        cases ms with
        | nil => cases hmem
        | cons a rest => rfl
    · rw [if_neg hdir]
      by_cases hh : ms.head? = some sel
      · rw [if_pos hh, find_previous_monitor_none]
        cases ms with
        | nil => cases hmem
        | cons a rest =>
          rw [List.getLast?_eq_getLast_of_ne_nil (List.cons_ne_nil a rest)]
          rfl
      · rw [if_neg hh]
        exact find_previous_monitor_isSome ms sel hmem hh

/-- C10 witness: on the three-monitor list `[0, 1, 2]`: going right from
the last monitor 2 wraps to the head, going left from the head monitor 0
wraps to the last, and going left from the middle monitor 1 returns some
monitor. -/
theorem dirtomon_wraps_witness :
    dirtomon 1 [0, 1, 2] 2 = ([0, 1, 2] : List Nat).head? ∧
      dirtomon (-1) [0, 1, 2] 0 = ([0, 1, 2] : List Nat).getLast? ∧
      (dirtomon (-1) [0, 1, 2] 1).isSome = true := by
  refine ⟨(dirtomon_wraps [0, 1, 2] 2 (by decide) (by decide)).1 1
      (by norm_num) (by decide),
    (dirtomon_wraps [0, 1, 2] 0 (by decide) (by decide)).2.1 (-1)
      (by norm_num) (by decide),
    (dirtomon_wraps [0, 1, 2] 1 (by decide) (by decide)).2.2 (-1)⟩

/-- C5 counterexample: a floating client with max-size hints `10 × 10`,
no other hints, on a `1000 × 1000` work area with bar height `bh = 20`:
requesting the rectangle `(0,0,50,50)` returns width 10, below `bh`,
because the max-size clamp runs after the `bh` floor. -/
theorem applysizehints_bh_cex :
    (applysizehints ⟨0, 0, 20, false⟩ true ⟨0, 0, 1000, 1000⟩
        ⟨0, 0, 0, 0, 0, 0, 0, 0, 0, 10, 10, 0, 0, 0, 0, true⟩
        0 0 50 50 false).w = 10 ∧
      ¬(20 : Int) ≤ 10 := by
  exact ⟨rfl, by norm_num⟩

/-- C5 amended: the width and height returned by `applysizehints` are each
at least the bar height `bh` whenever the ICCCM hint block is not entered
(`resizehints` disabled, client not floating, layout arranging); when the
hint block runs, max-size hints smaller than `bh` (and increment/min
arithmetic) can push the result below `bh`. -/
theorem applysizehints_ge_bh (g : SizeGlobals) (m : WorkArea) (c : SizeClient)
    (hr : g.resizehints = false) (hf : c.isfloating = false)
    (x y w h : Int) (interact : Bool) :
    g.bh ≤ (applysizehints g true m c x y w h interact).w ∧
      g.bh ≤ (applysizehints g true m c x y w h interact).h := by
  simp only [applysizehints, hr, hf, Bool.not_true, Bool.false_or,
    Bool.or_false, Bool.false_eq_true, if_false]
  constructor <;> (split_ifs <;> omega)

/-- C5 amended witness: the theorem applied to a concrete tiled client on
a `1000 × 1000` work area with `bh = 20` and the request `(0,0,5,5)`. -/
theorem applysizehints_ge_bh_witness :
    (20 : Int) ≤ (applysizehints ⟨0, 0, 20, false⟩ true ⟨0, 0, 1000, 1000⟩
        ⟨0, 0, 0, 0, 0, 0, 0, 0, 0, 10, 10, 0, 0, 0, 0, false⟩
        0 0 5 5 false).w := by
  exact (applysizehints_ge_bh ⟨0, 0, 20, false⟩ ⟨0, 0, 1000, 1000⟩
    ⟨0, 0, 0, 0, 0, 0, 0, 0, 0, 10, 10, 0, 0, 0, 0, false⟩
    rfl rfl 0 0 5 5 false).1

/-- C6 counterexample: a floating client with width increment 7 and
max width 10 (no other hints), work area `1000 × 1000`, `bh = 5`:
the request `(0,0,50,50)` is adjusted to `(0,0,10,50)` (50 rounds down to
49, clamped to `maxw = 10`), but applying `applysizehints` again to
`(0,0,10,50)` yields width `7` (10 rounds down to the increment multiple
7), so the second application does not return the same rectangle. -/
theorem applysizehints_idem_cex :
    applysizehints ⟨0, 0, 5, false⟩ true ⟨0, 0, 1000, 1000⟩
        ⟨0, 0, 0, 0, 0, 0, 0, 7, 0, 10, 0, 0, 0, 0, 0, true⟩
        0 0 50 50 false = ⟨0, 0, 10, 50, true⟩ ∧
      (applysizehints ⟨0, 0, 5, false⟩ true ⟨0, 0, 1000, 1000⟩
        ⟨0, 0, 0, 0, 0, 0, 0, 7, 0, 10, 0, 0, 0, 0, 0, true⟩
        0 0 10 50 false).w = 7 ∧
      (7 : Int) ≠ 10 := by
  exact ⟨rfl, rfl, by norm_num⟩

theorem clampXInteract_stable (g : SizeGlobals) (c : SizeClient)
    (hsw : 0 ≤ g.sw) (hbw : 0 ≤ c.border_width)
    (hcw : 0 < c.w + 2 * c.border_width)
    (x w0 w1 : Int) (h0 : 1 ≤ w0) (h01 : w0 ≤ w1) :
    clampXInteract g c (clampXInteract g c x w0) w1 = clampXInteract g c x w0 := by
  simp only [clampXInteract, WIDTHc]
  split_ifs <;> omega

theorem clampYInteract_stable (g : SizeGlobals) (c : SizeClient)
    (hsh : 0 ≤ g.sh) (hbw : 0 ≤ c.border_width)
    (hch : 0 < c.h + 2 * c.border_width)
    (y h0 h1 : Int) (hh0 : 1 ≤ h0) (hh01 : h0 ≤ h1) :
    clampYInteract g c (clampYInteract g c y h0) h1 = clampYInteract g c y h0 := by
  simp only [clampYInteract, HEIGHTc]
  split_ifs <;> omega

theorem clampXTiled_stable (m : WorkArea) (c : SizeClient)
    (hww : 0 < m.ww) (hbw : 0 ≤ c.border_width)
    (hcw : 0 < c.w + 2 * c.border_width)
    (x w0 w1 : Int) (h0 : 1 ≤ w0) (h01 : w0 ≤ w1) :
    clampXTiled m c (clampXTiled m c x w0) w1 = clampXTiled m c x w0 := by
  simp only [clampXTiled, WIDTHc]
  split_ifs <;> omega

theorem clampYTiled_stable (m : WorkArea) (c : SizeClient)
    (hwh : 0 < m.wh) (hbw : 0 ≤ c.border_width)
    (hch : 0 < c.h + 2 * c.border_width)
    (y h0 h1 : Int) (hh0 : 1 ≤ h0) (hh01 : h0 ≤ h1) :
    clampYTiled m c (clampYTiled m c y h0) h1 = clampYTiled m c y h0 := by
  simp only [clampYTiled, HEIGHTc]
  split_ifs <;> omega

/-- C6 amended: `applysizehints` is idempotent whenever the ICCCM hint
block is not entered (`resizehints` disabled, client not floating, layout
arranging), provided the client has nonnegative border width and positive
`WIDTH`/`HEIGHT`, the work area has positive dimensions and the screen
dimensions are nonnegative; when the hint block runs, increment rounding
combined with the max-size clamp can shrink the rectangle again on the
second application. -/
theorem applysizehints_idempotent (g : SizeGlobals) (m : WorkArea)
    (c : SizeClient)
    (hr : g.resizehints = false) (hf : c.isfloating = false)
    (hbw : 0 ≤ c.border_width)
    (hcw : 0 < c.w + 2 * c.border_width) (hch : 0 < c.h + 2 * c.border_width)
    (hww : 0 < m.ww) (hwh : 0 < m.wh) (hsw : 0 ≤ g.sw) (hsh : 0 ≤ g.sh)
    (x y w h : Int) (interact : Bool) :
    applysizehints g true m c
        (applysizehints g true m c x y w h interact).x
        (applysizehints g true m c x y w h interact).y
        (applysizehints g true m c x y w h interact).w
        (applysizehints g true m c x y w h interact).h interact =
      applysizehints g true m c x y w h interact := by
  simp only [applysizehints, hr, hf, Bool.not_true, Bool.false_or,
    Bool.or_false, Bool.false_eq_true, if_false]
  have hwfacts : max 1 w ≤ (if max 1 w < g.bh then g.bh else max 1 w) ∧
      1 ≤ (if max 1 w < g.bh then g.bh else max 1 w) ∧
      max 1 (if max 1 w < g.bh then g.bh else max 1 w) =
        (if max 1 w < g.bh then g.bh else max 1 w) ∧
      (if max 1 (if max 1 w < g.bh then g.bh else max 1 w) < g.bh then g.bh
        else max 1 (if max 1 w < g.bh then g.bh else max 1 w)) =
        (if max 1 w < g.bh then g.bh else max 1 w) := by
    split_ifs <;> omega
  have hhfacts : max 1 h ≤ (if max 1 h < g.bh then g.bh else max 1 h) ∧
      1 ≤ (if max 1 h < g.bh then g.bh else max 1 h) ∧
      max 1 (if max 1 h < g.bh then g.bh else max 1 h) =
        (if max 1 h < g.bh then g.bh else max 1 h) ∧
      (if max 1 (if max 1 h < g.bh then g.bh else max 1 h) < g.bh then g.bh
        else max 1 (if max 1 h < g.bh then g.bh else max 1 h)) =
        (if max 1 h < g.bh then g.bh else max 1 h) := by
    split_ifs <;> omega
  have hX : (if interact then
        clampXInteract g c
          (if interact then clampXInteract g c x (max 1 w)
            else clampXTiled m c x (max 1 w))
          (max 1 (if max 1 w < g.bh then g.bh else max 1 w))
      else
        clampXTiled m c
          (if interact then clampXInteract g c x (max 1 w)
            else clampXTiled m c x (max 1 w))
          (max 1 (if max 1 w < g.bh then g.bh else max 1 w))) =
      (if interact then clampXInteract g c x (max 1 w)
        else clampXTiled m c x (max 1 w)) := by
    rw [hwfacts.2.2.1]
    cases interact with
    | false =>
      simp only [Bool.false_eq_true, if_false]
      exact clampXTiled_stable m c hww hbw hcw x (max 1 w) _
        (le_max_left 1 w) hwfacts.1
    | true =>
      simp only [if_true]
      exact clampXInteract_stable g c hsw hbw hcw x (max 1 w) _
        (le_max_left 1 w) hwfacts.1
  have hY : (if interact then
        clampYInteract g c
          (if interact then clampYInteract g c y (max 1 h)
            else clampYTiled m c y (max 1 h))
          (max 1 (if max 1 h < g.bh then g.bh else max 1 h))
      else
        clampYTiled m c
          (if interact then clampYInteract g c y (max 1 h)
            else clampYTiled m c y (max 1 h))
          (max 1 (if max 1 h < g.bh then g.bh else max 1 h))) =
      (if interact then clampYInteract g c y (max 1 h)
        else clampYTiled m c y (max 1 h)) := by
    rw [hhfacts.2.2.1]
    cases interact with
    | false =>
      simp only [Bool.false_eq_true, if_false]
      exact clampYTiled_stable m c hwh hbw hch y (max 1 h) _
        (le_max_left 1 h) hhfacts.1
    | true =>
      simp only [if_true]
      exact clampYInteract_stable g c hsh hbw hch y (max 1 h) _
        (le_max_left 1 h) hhfacts.1
  rw [hX, hY, hwfacts.2.2.2, hhfacts.2.2.2]

/-- C6 amended witness: the idempotence theorem applied to a concrete
tiled client (no hint block) and the request `(0,0,50,50)`, non-interactive. -/
theorem applysizehints_idempotent_witness :
    applysizehints ⟨1920, 1080, 20, false⟩ true ⟨0, 0, 1000, 1000⟩
        ⟨0, 0, 30, 30, 1, 0, 0, 7, 0, 10, 0, 0, 0, 0, 0, false⟩
        0 0
        (applysizehints ⟨1920, 1080, 20, false⟩ true ⟨0, 0, 1000, 1000⟩
          ⟨0, 0, 30, 30, 1, 0, 0, 7, 0, 10, 0, 0, 0, 0, 0, false⟩
          0 0 50 50 false).w
        (applysizehints ⟨1920, 1080, 20, false⟩ true ⟨0, 0, 1000, 1000⟩
          ⟨0, 0, 30, 30, 1, 0, 0, 7, 0, 10, 0, 0, 0, 0, 0, false⟩
          0 0 50 50 false).h false =
      applysizehints ⟨1920, 1080, 20, false⟩ true ⟨0, 0, 1000, 1000⟩
        ⟨0, 0, 30, 30, 1, 0, 0, 7, 0, 10, 0, 0, 0, 0, 0, false⟩
        0 0 50 50 false := by
  have h := applysizehints_idempotent ⟨1920, 1080, 20, false⟩ ⟨0, 0, 1000, 1000⟩
    ⟨0, 0, 30, 30, 1, 0, 0, 7, 0, 10, 0, 0, 0, 0, 0, false⟩
    rfl rfl (by norm_num) (by norm_num) (by norm_num) (by norm_num)
    (by norm_num) (by norm_num) (by norm_num) 0 0 50 50 false
  have hx : (applysizehints ⟨1920, 1080, 20, false⟩ true ⟨0, 0, 1000, 1000⟩
      ⟨0, 0, 30, 30, 1, 0, 0, 7, 0, 10, 0, 0, 0, 0, 0, false⟩
      0 0 50 50 false).x = 0 := rfl
  have hy : (applysizehints ⟨1920, 1080, 20, false⟩ true ⟨0, 0, 1000, 1000⟩
      ⟨0, 0, 30, 30, 1, 0, 0, 7, 0, 10, 0, 0, 0, 0, 0, false⟩
      0 0 50 50 false).y = 0 := rfl
  rw [hx, hy] at h
  exact h

theorem arrange_client_effect_flags (g : SizeGlobals) (la : Bool)
    (m : WorkArea) (visible : Bool) (c : Client) :
    (arrange_client_effect g la m visible c).border_width = c.border_width ∧
      (arrange_client_effect g la m visible c).isfloating = c.isfloating ∧
      (arrange_client_effect g la m visible c).isfullscreen = c.isfullscreen := by
  dsimp only [arrange_client_effect, showhide_client, resize]
  split_ifs <;> simp [resizeclient]

theorem arrange_client_effect_geom_unchanged (g : SizeGlobals) (la : Bool)
    (m : WorkArea) (visible : Bool) (c : Client)
    (hchg : (applysizehints g la m (toSize c) c.x c.y c.w c.h false).changed
      = false) :
    arrange_client_effect g la m visible c = c := by
  dsimp only [arrange_client_effect, showhide_client, resize]
  split_ifs with h1 h2
  · rw [hchg] at h2
    cases h2
  · rfl
  · rfl

theorem arrange_client_effect_geom_changed (g : SizeGlobals) (la : Bool)
    (m : WorkArea) (c : Client)
    (hfl : c.isfloating = true ∨ la = false) (hfs : c.isfullscreen = false)
    (hchg : (applysizehints g la m (toSize c) c.x c.y c.w c.h false).changed
      = true) :
    arrange_client_effect g la m true c =
      resizeclient c
        (applysizehints g la m (toSize c) c.x c.y c.w c.h false).x
        (applysizehints g la m (toSize c) c.x c.y c.w c.h false).y
        (applysizehints g la m (toSize c) c.x c.y c.w c.h false).w
        (applysizehints g la m (toSize c) c.x c.y c.w c.h false).h := by
  dsimp only [arrange_client_effect, showhide_client, resize]
  have hcond : (true && ((!la || c.isfloating) && !c.isfullscreen)) = true := by
    cases hfl with
    | inl hc => simp [hc, hfs]
    | inr hl => simp [hl, hfs]
  rw [if_pos hcond, if_pos hchg]

/-- C9 counterexample: a visible floating client with width-increment 7
and max width 30, standing at `30 × 30` after an earlier arrange.  A
fullscreen toggle on then off restores `w = 30`, but the trailing
`arrange(c->monitor)` of the un-fullscreen path re-runs the size-hint
filter (`showhide` → `resize`), which rounds 30 down to the increment
multiple 28: the final width is `28 ≠ 30`, so the geometry is not restored
to its pre-fullscreen value. -/
theorem setfullscreen_restore_cex :
    (setfullscreen ⟨1920, 1080, 5, false⟩ true ⟨0, 0, 1000, 1000⟩
        ⟨0, 0, 1920, 1080⟩ true
        (setfullscreen ⟨1920, 1080, 5, false⟩ true ⟨0, 0, 1000, 1000⟩
          ⟨0, 0, 1920, 1080⟩ true fsCexClient true) false).w = 28 ∧
      fsCexClient.w = 30 ∧ (28 : Int) ≠ 30 := by
  exact ⟨rfl, rfl, by norm_num⟩

/-- C9 amended: for a non-fullscreen client, `setfullscreen(c, 1)` makes
the geometry equal the monitor screen rectangle with `border_width 0` and
`is_floating` true; an immediately following `setfullscreen(c, 0)`
restores border width and floating state, and it writes the pre-fullscreen
geometry back — but its trailing `arrange` re-runs the size-hint filter on
a visible floating (or non-arranged) client, so the final geometry equals
the pre-fullscreen one exactly when `apply_size_hints` leaves that
rectangle unchanged; when the filter does change it (increment, aspect or
min/max hints), the final geometry is the filtered rectangle instead. -/
theorem setfullscreen_roundtrip_amended (g : SizeGlobals) (la : Bool)
    (m : WorkArea) (scr : ScreenRect) (visible : Bool) (c : Client)
    (h : c.isfullscreen = false) :
    (setfullscreen g la m scr visible c true).x = scr.mx ∧
    (setfullscreen g la m scr visible c true).y = scr.my ∧
    (setfullscreen g la m scr visible c true).w = scr.mw ∧
    (setfullscreen g la m scr visible c true).h = scr.mh ∧
    (setfullscreen g la m scr visible c true).border_width = 0 ∧
    (setfullscreen g la m scr visible c true).isfloating = true ∧
    (setfullscreen g la m scr visible
        (setfullscreen g la m scr visible c true) false).border_width =
      c.border_width ∧
    (setfullscreen g la m scr visible
        (setfullscreen g la m scr visible c true) false).isfloating =
      c.isfloating ∧
    (setfullscreen g la m scr visible
        (setfullscreen g la m scr visible c true) false).isfullscreen =
      false ∧
    ((visible = false ∨ c.isfloating = true ∨ la = false) →
      (applysizehints g la m (toSize c) c.x c.y c.w c.h false).changed
          = false →
      ((setfullscreen g la m scr visible
          (setfullscreen g la m scr visible c true) false).x = c.x ∧
        (setfullscreen g la m scr visible
          (setfullscreen g la m scr visible c true) false).y = c.y ∧
        (setfullscreen g la m scr visible
          (setfullscreen g la m scr visible c true) false).w = c.w ∧
        (setfullscreen g la m scr visible
          (setfullscreen g la m scr visible c true) false).h = c.h)) ∧
    (visible = true → (c.isfloating = true ∨ la = false) →
      (applysizehints g la m (toSize c) c.x c.y c.w c.h false).changed
          = true →
      ((setfullscreen g la m scr visible
          (setfullscreen g la m scr visible c true) false).x =
          (applysizehints g la m (toSize c) c.x c.y c.w c.h false).x ∧
        (setfullscreen g la m scr visible
          (setfullscreen g la m scr visible c true) false).y =
          (applysizehints g la m (toSize c) c.x c.y c.w c.h false).y ∧
        (setfullscreen g la m scr visible
          (setfullscreen g la m scr visible c true) false).w =
          (applysizehints g la m (toSize c) c.x c.y c.w c.h false).w ∧
        (setfullscreen g la m scr visible
          (setfullscreen g la m scr visible c true) false).h =
          (applysizehints g la m (toSize c) c.x c.y c.w c.h false).h)) := by
  have h1 : setfullscreen g la m scr visible c true =
      { c with
        isfullscreen := true, oldstate := c.isfloating
        old_border_width := c.border_width, border_width := 0
        isfloating := true
        oldx := c.x, x := scr.mx
        oldy := c.y, y := scr.my
        oldw := c.w, w := scr.mw
        oldh := c.h, h := scr.mh } := by
    rw [setfullscreen, if_pos (by rw [h]; rfl)]
    rfl
  have h2 : setfullscreen g la m scr visible
      (setfullscreen g la m scr visible c true) false =
      arrange_client_effect g la m visible
        { c with
          oldx := c.x, oldy := c.y, oldw := c.w, oldh := c.h
          old_border_width := c.border_width, oldstate := c.isfloating
          isfullscreen := false } := by
    rw [h1, setfullscreen, if_neg (by simp), if_pos (by rfl)]
    rfl
  refine ⟨by rw [h1], by rw [h1], by rw [h1], by rw [h1], by rw [h1],
    by rw [h1], ?_, ?_, ?_, ?_, ?_⟩
  · rw [h2, (arrange_client_effect_flags g la m visible _).1]
  · rw [h2, (arrange_client_effect_flags g la m visible _).2.1]
  · rw [h2, (arrange_client_effect_flags g la m visible _).2.2]
  · intro _ hchg
    rw [h2, arrange_client_effect_geom_unchanged g la m visible
      { c with
        oldx := c.x, oldy := c.y, oldw := c.w, oldh := c.h
        old_border_width := c.border_width, oldstate := c.isfloating
        isfullscreen := false } hchg]
    exact ⟨rfl, rfl, rfl, rfl⟩
  · intro hvis hfl hchg
    rw [h2, hvis, arrange_client_effect_geom_changed g la m
      { c with
        oldx := c.x, oldy := c.y, oldw := c.w, oldh := c.h
        old_border_width := c.border_width, oldstate := c.isfloating
        isfullscreen := false } hfl rfl hchg]
    exact ⟨rfl, rfl, rfl, rfl⟩

/-- C9 amended witness: the theorem applied to a visible floating
`30 × 30` client with no size hints on a 1920×1080 screen: fullscreen-on
sets width 1920, and after the off-toggle the size-hint filter leaves the
restored rectangle unchanged, so the width returns to 30 and the border
width to its old value 2. -/
theorem setfullscreen_roundtrip_amended_witness :
    (setfullscreen ⟨1920, 1080, 5, false⟩ true ⟨0, 0, 1000, 1000⟩
        ⟨0, 0, 1920, 1080⟩ true
        ⟨0, 0, 30, 30, 0, 0, 0, 0, 2, 0, 0, 0, 0, 0, 0, 0, 0, 0, 0, 0,
          true, false, false⟩ true).w = 1920 ∧
      (setfullscreen ⟨1920, 1080, 5, false⟩ true ⟨0, 0, 1000, 1000⟩
        ⟨0, 0, 1920, 1080⟩ true
        (setfullscreen ⟨1920, 1080, 5, false⟩ true ⟨0, 0, 1000, 1000⟩
          ⟨0, 0, 1920, 1080⟩ true
          ⟨0, 0, 30, 30, 0, 0, 0, 0, 2, 0, 0, 0, 0, 0, 0, 0, 0, 0, 0, 0,
            true, false, false⟩ true) false).w = 30 ∧
      (setfullscreen ⟨1920, 1080, 5, false⟩ true ⟨0, 0, 1000, 1000⟩
        ⟨0, 0, 1920, 1080⟩ true
        (setfullscreen ⟨1920, 1080, 5, false⟩ true ⟨0, 0, 1000, 1000⟩
          ⟨0, 0, 1920, 1080⟩ true
          ⟨0, 0, 30, 30, 0, 0, 0, 0, 2, 0, 0, 0, 0, 0, 0, 0, 0, 0, 0, 0,
            true, false, false⟩ true) false).border_width = 2 := by
  have hh := setfullscreen_roundtrip_amended ⟨1920, 1080, 5, false⟩ true
    ⟨0, 0, 1000, 1000⟩ ⟨0, 0, 1920, 1080⟩ true
    ⟨0, 0, 30, 30, 0, 0, 0, 0, 2, 0, 0, 0, 0, 0, 0, 0, 0, 0, 0, 0,
      true, false, false⟩ rfl
  exact ⟨hh.2.2.1,
    (hh.2.2.2.2.2.2.2.2.2.1 (Or.inr (Or.inl rfl)) rfl).2.2.1,
    hh.2.2.2.2.2.2.1⟩

end Dwm
